import Mathlib

/-!
Verification of the Git Publisher plugin (src/main.ts).

Shallow embedding of the publish orchestrator and the batch commit
protocol: the plugin's mutable fields become a `PluginState` record, the
vault and the GitHub remote become an explicit environment `BatchEnv`
whose request outcomes are fixed, and each method of the plugin becomes a
state-passing function translated from the TypeScript source.
-/

namespace GitPublish

/-- Settings record, embedding `GitPublisherSettings` (src/main.ts line 6).
Numeric fields are `Int` because the raw values loaded from disk are
arbitrary JS numbers before sanitization. -/
structure Settings where
  repoUri : String
  githubToken : String
  autoPublishEnabled : Bool
  inactivityDelaySec : Int
  maxIntervalMin : Int
  defaultBranch : String
  debounceMs : Int
  batchCommitMessage : String
  maxFileSizeKB : Int
deriving Repr, DecidableEq

/-- Character class `[\w.-]` of the repository-URL regex (line 34):
ASCII letters, digits, underscore, dot, dash. -/
def isWordDotDash (c : Char) : Bool :=
  c.isAlphanum || c = '_' || c = '.' || c = '-'

/-- One path segment of the repository-URL regex: `[\w.-]+`. -/
def segOk (l : List Char) : Bool :=
  !l.isEmpty && l.all isWordDotDash

/-- Drops an expected literal prefix from a character list, or fails. -/
def dropPref : List Char → List Char → Option (List Char)
  | [], l => some l
  | _ :: _, [] => none
  | p :: ps, c :: cs => if c = p then dropPref ps cs else none

/-- Splits a character list at its first `'/'`. Returns the part before
and the part after that slash. -/
def splitSlash : List Char → Option (List Char × List Char)
  | [] => none
  | c :: rest =>
    if c = '/' then some ([], rest)
    else
      match splitSlash rest with
      | some (a, b) => some (c :: a, b)
      | none => none

/-- Matching of `^https:\/\/github\.com\/([\w.-]+)\/([\w.-]+)(?:\.git)?$`
(lines 34 and 107). The optional `.git` group adds nothing to the language
because `.`, `g`, `i`, `t` all lie in `[\w.-]`, and JS greedy matching puts
a trailing `.git` into the second capture group, so the second capture is
simply the whole second segment. -/
def matchRepoUri (s : String) : Option (String × String) :=
  match dropPref "https://github.com/".data s.data with
  | none => none
  | some rest =>
    match splitSlash rest with
    | none => none
    | some (own, rep) =>
      if segOk own && segOk rep then some (String.mk own, String.mk rep)
      else none

/-- Whether the repository URL passes the regex test of line 34. -/
def validRepoUri (s : String) : Bool :=
  (matchRepoUri s).isSome

/-- Character class of the branch-name regex of line 35: ASCII letters,
digits, dot, underscore, slash, dash. -/
def branchChar (c : Char) : Bool :=
  c.isAlphanum || c = '.' || c = '_' || c = '/' || c = '-'

/-- Whether the branch name passes the regex test of line 35. -/
def validBranch (s : String) : Bool :=
  !s.data.isEmpty && s.data.all branchChar

/-- Commit-message cleanup of line 40: CR and LF replaced by spaces, the
result truncated to 100 characters, empty falling back to `"Publish"`. -/
def sanitizeMessage (m : String) : String :=
  let cleaned := String.mk
    ((m.data.map (fun c => if c = '\r' ∨ c = '\n' then ' ' else c)).take 100)
  if cleaned = "" then "Publish" else cleaned

/-- Embeds `sanitizeSettings` (lines 33-41). The source mutates the
fields in sequence; the checks touch pairwise disjoint fields, so they
are rendered field-wise: line 34 resets an invalid repo URL and disables
auto-publish, line 35 resets an invalid branch to `main` (and only the
branch), lines 36-39 clamp the numeric minimums, line 40 cleans the
commit message. -/
def sanitizeSettings (st : Settings) : Settings :=
  { repoUri := if validRepoUri st.repoUri then st.repoUri else ""
    githubToken := st.githubToken
    autoPublishEnabled :=
      if validRepoUri st.repoUri then st.autoPublishEnabled else false
    inactivityDelaySec :=
      if st.inactivityDelaySec < 5 then 5 else st.inactivityDelaySec
    maxIntervalMin := if st.maxIntervalMin < 1 then 1 else st.maxIntervalMin
    defaultBranch :=
      if validBranch st.defaultBranch then st.defaultBranch else "main"
    debounceMs := if st.debounceMs < 250 then 250 else st.debounceMs
    batchCommitMessage := sanitizeMessage st.batchCommitMessage
    maxFileSizeKB := if st.maxFileSizeKB < 50 then 50 else st.maxFileSizeKB }

/-- Embeds `parseRepo` (line 107): empty URL is falsy, otherwise the
same regex as line 34 with the owner/repo captures. -/
def parseRepo (st : Settings) : Option (String × String) :=
  if st.repoUri = "" then none else matchRepoUri st.repoUri

/-- Plugin state: the mutable fields of `GitPublisherPlugin`
(lines 9-23) that the orchestrator and the protocol read or write, plus
observation lists for emitted notices, log events and issued network
requests. `pendingChanges` is a JS `Map` rendered as an insertion-ordered
association list, `publishQueue` a JS `Set` rendered as a duplicate-free
insertion-ordered list. Timer handles model armed `setTimeout` timers;
`none` means no timer armed. -/
structure PluginState where
  settings : Settings
  pendingChanges : List (String × Bool)
  publishQueue : List String
  publishingInProgress : Bool
  inactivityHandle : Option Nat
  sessionHandle : Option Nat
  sessionStart : Option Nat
  debounceHandle : Option Nat
  notices : List String
  logs : List String
  netCalls : Nat
deriving Repr, DecidableEq

/-- Lookup in a JS-`Map`-style association list (`Map.get`). -/
def mapGet : List (String × Bool) → String → Option Bool
  | [], _ => none
  | (k, v) :: t, q => if k = q then some v else mapGet t q

/-- Update in a JS-`Map`-style association list (`Map.set`): replaces in
place when the key exists (keeping its position), appends otherwise. -/
def mapSet : List (String × Bool) → String → Bool → List (String × Bool)
  | [], k, v => [(k, v)]
  | (k', v') :: t, k, v =>
    if k' = k then (k, v) :: t else (k', v') :: mapSet t k v

/-- Effect of `for(const p of paths) this.pendingChanges.set(p,false)`
in `publishBatch` (line 112). -/
def setAllClean : List (String × Bool) → List String → List (String × Bool)
  | m, [] => m
  | m, p :: rest => setAllClean (mapSet m p false) rest

/-- Insertion into the JS-`Set`-style publish queue (`Set.add`):
a no-op when the path is already present. -/
def queueAdd (q : List String) (p : String) : List String :=
  if p ∈ q then q else q ++ [p]

/-- Appends a log event (the `log` method, line 126, keeping only the
event name). -/
def pushLog (s : PluginState) (m : String) : PluginState :=
  { s with logs := s.logs ++ [m] }

/-- Appends a user-visible notice (`new Notice(...)`). -/
def pushNotice (s : PluginState) (m : String) : PluginState :=
  { s with notices := s.notices ++ [m] }

/-- Outcome of one GitHub API request as fixed by the environment:
success carrying the useful payload, or an error carrying the optional
HTTP status (`none` when no response arrived). -/
inductive ReqOutcome (α : Type) where
  | ok : α → ReqOutcome α
  | err : Option Nat → ReqOutcome α
deriving Repr, DecidableEq

/-- Whether an outcome is a success. -/
def ReqOutcome.isOk {α : Type} : ReqOutcome α → Bool
  | .ok _ => true
  | .err _ => false

/-- Value delivered to the caller of `githubReq` (line 45-48): the
response data on success, `null` on any error. -/
def reqVal {α : Type} : ReqOutcome α → Option α
  | .ok a => some a
  | .err _ => none

/-- Notice text chosen by the catch branch of `githubReq` (line 47):
a dedicated message for HTTP 409, a generic error message otherwise. -/
def noticeFor : Option Nat → String
  | some 409 => "GitHub 409 Konflikt"
  | _ => "GitHub Fehler"

/-- State effect of `githubReq` (lines 45-48): a success logs
`github_ok`; an error logs `github_err` and raises a user-visible notice.
Either way one network call is issued. -/
def reqState {α : Type} (s : PluginState) : ReqOutcome α → PluginState
  | .ok _ =>
    { s with logs := s.logs ++ ["github_ok"], netCalls := s.netCalls + 1 }
  | .err st =>
    { s with logs := s.logs ++ ["github_err"],
             notices := s.notices ++ [noticeFor st],
             netCalls := s.netCalls + 1 }

/-- Environment of one run: the vault content per path (`none` when the
path is not a markdown `TFile`), the `published` frontmatter flag per
path, and the fixed outcomes of the GitHub requests the run can issue. -/
structure BatchEnv where
  vault : String → Option String
  meta : String → Option Bool
  refOutcome : ReqOutcome String
  initOutcome : ReqOutcome String
  refOutcome2 : ReqOutcome String
  blobOutcome : String → ReqOutcome String
  treeOutcome : ReqOutcome String
  commitOutcome : ReqOutcome String
  refUpdateOutcome : ReqOutcome Unit

/-- Embeds `ensureGitHubConfig` (line 55): both the repo URL and the
token must be non-empty (JS truthiness of strings). -/
def ensureGitHubConfig (s : PluginState) : Bool :=
  !(s.settings.repoUri = "") && !(s.settings.githubToken = "")

/-- Head-commit sha produced by `ensureBranchExists` (line 109): the
branch ref if it resolves, otherwise one branch-creation attempt via the
`.gitkeep` PUT (line 110) followed by a re-resolve. Depends only on the
environment's fixed request outcomes. -/
def ensureBranchExistsSha (env : BatchEnv) : Option String :=
  match reqVal env.refOutcome with
  | some sha => some sha
  | none =>
    match reqVal env.initOutcome with
    | none => none
    | some _ => reqVal env.refOutcome2

/-- State effect of `ensureBranchExists` (lines 109-110): the same
control flow as `ensureBranchExistsSha`, threading the state through each
issued request. -/
def ensureBranchExistsState (env : BatchEnv) (s : PluginState) :
    PluginState :=
  match reqVal env.refOutcome with
  | some _ => reqState s env.refOutcome
  | none =>
    match reqVal env.initOutcome with
    | none => reqState (reqState s env.refOutcome) env.initOutcome
    | some _ =>
      reqState (reqState (reqState s env.refOutcome) env.initOutcome)
        env.refOutcome2

/-- Embeds `ensureBranchExists` as the pair of its state effect and its
returned sha. -/
def ensureBranchExists (env : BatchEnv) (s : PluginState) :
    PluginState × Option String :=
  (ensureBranchExistsState env s, ensureBranchExistsSha env)

/-- Blob-upload loop of `publishBatch` (line 112): for each path, a
missing file logs `skip_not_file`; otherwise the content is read and a
blob POST issued, a successful upload contributing `(path, sha)` to the
blob list and a failed one logging `blob_fail` and contributing
nothing. -/
def collectBlobs (env : BatchEnv) :
    List String → PluginState → PluginState × List (String × String)
  | [], s => (s, [])
  | p :: rest, s =>
    match env.vault p with
    | none => collectBlobs env rest (pushLog s "skip_not_file")
    | some _content =>
      match reqVal (env.blobOutcome p) with
      | some sha =>
        let r := collectBlobs env rest (reqState s (env.blobOutcome p))
        (r.1, (p, sha) :: r.2)
      | none =>
        collectBlobs env rest
          (pushLog (reqState s (env.blobOutcome p)) "blob_fail")

/-- Embeds `publishBatch` (line 112): parse the repo, resolve the branch
head, upload the blobs, then build one tree, one commit and advance the
branch ref; on a successful ref update every snapshot path is marked
clean, `batch_ok` is logged and a completion notice raised; a failure at
any stage logs its event and returns without touching `pendingChanges`. -/
def publishBatch (env : BatchEnv) (paths : List String)
    (s0 : PluginState) : PluginState :=
  let s1 := pushLog s0 "batch_start"
  match parseRepo s0.settings with
  | none => pushLog s1 "batch_abort_parse"
  | some _pr =>
    let s2 := ensureBranchExistsState env s1
    match ensureBranchExistsSha env with
    | none => pushLog s2 "batch_abort_branch"
    | some _base =>
      let s3 := (collectBlobs env paths s2).1
      let blobs := (collectBlobs env paths s2).2
      if blobs.isEmpty then pushLog s3 "batch_no_blobs"
      else
        let s4 := reqState s3 env.treeOutcome
        match reqVal env.treeOutcome with
        | none => pushLog s4 "tree_fail"
        | some _tree =>
          let s5 := reqState s4 env.commitOutcome
          match reqVal env.commitOutcome with
          | none => pushLog s5 "commit_fail"
          | some _commit =>
            let s6 := reqState s5 env.refUpdateOutcome
            match reqVal env.refUpdateOutcome with
            | none => pushLog s6 "ref_fail"
            | some _ =>
              let s7 :=
                { s6 with
                  pendingChanges := setAllClean s6.pendingChanges paths }
              pushNotice (pushLog s7 "batch_ok") "Published"

/-- Embeds `processPublishQueue` (line 105): gated by the single
in-flight flag and the config check; snapshots the queue, runs the batch
over the snapshot, then deletes every snapshot path from the queue; the
`finally` block clears the in-flight flag. -/
def processPublishQueue (env : BatchEnv) (s : PluginState) : PluginState :=
  if s.publishingInProgress then s
  else if !ensureGitHubConfig s then s
  else
    let s1 : PluginState := { s with publishingInProgress := true }
    let s2 :=
      if s.publishQueue.isEmpty then s1
      else
        let sb := publishBatch env s.publishQueue s1
        { sb with
          publishQueue :=
            sb.publishQueue.filter (fun q => decide (q ∉ s.publishQueue)) }
    { s2 with publishingInProgress := false }

/-- Embeds `isSafePath` (line 103): rejects paths starting with `.` or
containing `..`. -/
def hasDotDot : List Char → Bool
  | '.' :: '.' :: _ => true
  | _ :: rest => hasDotDot rest
  | [] => false

/-- Whether a path passes the path-safety check of line 103. -/
def isSafePath (p : String) : Bool :=
  !(match p.data with | '.' :: _ => true | _ => false) && !hasDotDot p.data

/-- Embeds `isTooLarge` (line 102). The un-awaited `adapter.stat?.()`
call yields a Promise whose `.size` is undefined, so the code always
falls through to comparing the content length against the kilobyte
ceiling. -/
def isTooLarge (s : PluginState) (content : String) : Bool :=
  (content.length : Int) > s.settings.maxFileSizeKB * 1024

/-- Embeds `queueFileForPublish` (line 101): an unsafe path returns
immediately, an oversized file logs `skip_large` and returns, otherwise
the path is added to the queue and the queue processed. Note the
`published` frontmatter flag is not consulted here. -/
def queueFileForPublish (env : BatchEnv) (s : PluginState)
    (p content : String) : PluginState :=
  if !isSafePath p then s
  else if isTooLarge s content then pushLog s "skip_large"
  else processPublishQueue env { s with publishQueue := queueAdd s.publishQueue p }

/-- Embeds `publishAllPending` (line 100): when auto-publish is enabled,
walk the pending map in insertion order and enqueue every path whose
flag is currently dirty and which still resolves to a vault file. Each
enqueue immediately calls `processPublishQueue`. -/
def publishAllPending (env : BatchEnv) (s : PluginState) : PluginState :=
  if s.settings.autoPublishEnabled then
    (s.pendingChanges.map Prod.fst).foldl
      (fun acc p =>
        if mapGet acc.pendingChanges p = some true then
          match env.vault p with
          | some content => queueFileForPublish env acc p content
          | none => acc
        else acc) s
  else s

/-- Embeds `publishFileIfPending` (line 99): requires auto-publish
enabled, `published: true` frontmatter and a dirty flag before
enqueueing. -/
def publishFileIfPending (env : BatchEnv) (s : PluginState)
    (p content : String) : PluginState :=
  if s.settings.autoPublishEnabled then
    if env.meta p = some true then
      if mapGet s.pendingChanges p = some true then
        queueFileForPublish env s p content
      else s
    else s
  else s

/-- Embeds the `vault.on('modify')` handler of `registerEvents`
(line 85): a markdown `TFile` whose frontmatter has `published: true` is
marked dirty; anything else is ignored. -/
def handleVaultModify (s : PluginState) (p : String)
    (isMarkdownFile : Bool) (published : Option Bool) : PluginState :=
  if isMarkdownFile then
    if published = some true then
      { s with pendingChanges := mapSet s.pendingChanges p true }
    else s
  else s

/-- Embeds the `gitpub-publish-current` command of `addCommands`
(line 74): with an active file, its path and content go straight to
`queueFileForPublish`; no `published` frontmatter check is performed. -/
def publishCurrentCommand (env : BatchEnv) (s : PluginState)
    (active : Option (String × String)) : PluginState :=
  match active with
  | none => s
  | some pc => queueFileForPublish env s pc.1 pc.2

/-- Embeds `clearTimers` (line 90): disarms the inactivity timer, the
session timer and the debounce gate and nulls all four handles. -/
def clearTimers (s : PluginState) : PluginState :=
  { s with inactivityHandle := none, sessionHandle := none,
           sessionStart := none, debounceHandle := none }

/-- Embeds `onunload` (line 70): clears the timers (the view detaching
has no orchestrator state). -/
def onunload (s : PluginState) : PluginState :=
  clearTimers s

/-- Embeds the `onChange` handler of the Auto Publish toggle in
`GitPublisherSettingTab.display` (line 137): it stores the new flag and
persists the settings; it does not touch any timer handle. -/
def autoPublishToggleOnChange (s : PluginState) (v : Bool) : PluginState :=
  { s with settings := { s.settings with autoPublishEnabled := v } }

/-- Well-formed settings used by the concrete scenarios: a valid repo
URL, a token, auto-publish on, the default numeric values of line 27. -/
def okSettings : Settings :=
  { repoUri := "https://github.com/user/repo", githubToken := "t",
    autoPublishEnabled := true, inactivityDelaySec := 30,
    maxIntervalMin := 5, defaultBranch := "main", debounceMs := 1500,
    batchCommitMessage := "Publish", maxFileSizeKB := 1024 }

/-- Freshly loaded plugin state with the well-formed settings. -/
def baseState : PluginState :=
  { settings := okSettings, pendingChanges := [], publishQueue := [],
    publishingInProgress := false, inactivityHandle := none,
    sessionHandle := none, sessionStart := none, debounceHandle := none,
    notices := [], logs := [], netCalls := 0 }

/-- Environment in which the vault holds `a.md` and `b.md` and every
remote request succeeds. -/
def allOkEnv : BatchEnv :=
  { vault := fun p =>
      if p = "a.md" then some "A" else if p = "b.md" then some "B" else none,
    meta := fun _ => some true,
    refOutcome := .ok "base", initOutcome := .ok "i",
    refOutcome2 := .ok "base", blobOutcome := fun _ => .ok "bsha",
    treeOutcome := .ok "t", commitOutcome := .ok "c",
    refUpdateOutcome := .ok () }

/-- State in which `a.md` and `b.md` are both marked dirty. -/
def twoDirtyState : PluginState :=
  { baseState with pendingChanges := [("a.md", true), ("b.md", true)] }

/-- Environment in which the blob upload for `a.md` fails and every
other request succeeds. -/
def envBlobFail : BatchEnv :=
  { allOkEnv with
    blobOutcome := fun p => if p = "a.md" then .err none else .ok "s2" }

/-- Environment in which the final ref update returns HTTP 409. -/
def conflictEnv : BatchEnv :=
  { allOkEnv with refUpdateOutcome := .err (some 409) }

/-- State with a batch run in flight and one path already queued. -/
def inFlightState : PluginState :=
  { baseState with publishingInProgress := true, publishQueue := ["q.md"] }

/-- Environment whose active file carries `published: false`
frontmatter. -/
def draftEnv : BatchEnv :=
  { allOkEnv with meta := fun _ => some false, vault := fun _ => some "x" }

/-- State with one path waiting in the publish queue. -/
def queuedState : PluginState :=
  { baseState with
    publishQueue := ["a.md"],
    pendingChanges := [("a.md", true)] }

/-- State with all three timers armed and auto-publish enabled. -/
def armedState : PluginState :=
  { baseState with
    inactivityHandle := some 1,
    sessionHandle := some 2,
    debounceHandle := some 3 }

/-- State with auto-publish disabled but a timer still armed. -/
def disabledState : PluginState :=
  { baseState with
    settings := { okSettings with autoPublishEnabled := false },
    inactivityHandle := some 7 }

/-- Settings whose branch name fails the regex of line 35 while the
repo URL is valid and auto-publish is on. -/
def badBranchSettings : Settings :=
  { okSettings with defaultBranch := "bad branch" }

/-! Frame lemmas: which fields each primitive state effect leaves
untouched. -/

@[simp]
theorem pushLog_settings (s : PluginState) (m : String) :
    (pushLog s m).settings = s.settings := rfl

@[simp]
theorem pushLog_pendingChanges (s : PluginState) (m : String) :
    (pushLog s m).pendingChanges = s.pendingChanges := rfl

@[simp]
theorem pushLog_publishQueue (s : PluginState) (m : String) :
    (pushLog s m).publishQueue = s.publishQueue := rfl

@[simp]
theorem pushLog_notices (s : PluginState) (m : String) :
    (pushLog s m).notices = s.notices := rfl

@[simp]
theorem pushLog_netCalls (s : PluginState) (m : String) :
    (pushLog s m).netCalls = s.netCalls := rfl

@[simp]
theorem pushLog_publishingInProgress (s : PluginState) (m : String) :
    (pushLog s m).publishingInProgress = s.publishingInProgress := rfl

@[simp]
theorem pushNotice_pendingChanges (s : PluginState) (m : String) :
    (pushNotice s m).pendingChanges = s.pendingChanges := rfl

@[simp]
theorem pushNotice_publishQueue (s : PluginState) (m : String) :
    (pushNotice s m).publishQueue = s.publishQueue := rfl

@[simp]
theorem reqVal_ok {α : Type} (a : α) :
    reqVal (ReqOutcome.ok a) = some a := rfl

@[simp]
theorem reqVal_err {α : Type} (e : Option Nat) :
    (reqVal (ReqOutcome.err e) : Option α) = none := rfl

@[simp]
theorem reqState_settings {α : Type} (s : PluginState) (o : ReqOutcome α) :
    (reqState s o).settings = s.settings := by
  cases o <;> rfl

@[simp]
theorem reqState_pendingChanges {α : Type} (s : PluginState)
    (o : ReqOutcome α) :
    (reqState s o).pendingChanges = s.pendingChanges := by
  cases o <;> rfl

@[simp]
theorem reqState_publishQueue {α : Type} (s : PluginState)
    (o : ReqOutcome α) :
    (reqState s o).publishQueue = s.publishQueue := by
  cases o <;> rfl

theorem isOk_exists {α : Type} {o : ReqOutcome α} (h : o.isOk = true) :
    ∃ v, o = ReqOutcome.ok v := by
  cases o with
  | ok v => exact ⟨v, rfl⟩
  | err e => simp [ReqOutcome.isOk] at h

@[simp]
theorem ensureBranchExistsState_pendingChanges (env : BatchEnv)
    (s : PluginState) :
    (ensureBranchExistsState env s).pendingChanges = s.pendingChanges := by
  unfold ensureBranchExistsState
  cases reqVal env.refOutcome with
  | some sha => simp
  | none => cases reqVal env.initOutcome with
    | some i => simp
    | none => simp

@[simp]
theorem ensureBranchExistsState_publishQueue (env : BatchEnv)
    (s : PluginState) :
    (ensureBranchExistsState env s).publishQueue = s.publishQueue := by
  unfold ensureBranchExistsState
  cases reqVal env.refOutcome with
  | some sha => simp
  | none => cases reqVal env.initOutcome with
    | some i => simp
    | none => simp

@[simp]
theorem collectBlobs_fst_pendingChanges (env : BatchEnv)
    (paths : List String) : ∀ s : PluginState,
    ((collectBlobs env paths s).1).pendingChanges = s.pendingChanges := by
  induction paths with
  | nil => intro s; rfl
  | cons p rest ih =>
    intro s
    cases hv : env.vault p with
    | none => simp [collectBlobs, hv, ih]
    | some c =>
      cases hb : reqVal (env.blobOutcome p) with
      | none => simp [collectBlobs, hv, hb, ih]
      | some sha => simp [collectBlobs, hv, hb, ih]

@[simp]
theorem collectBlobs_fst_publishQueue (env : BatchEnv)
    (paths : List String) : ∀ s : PluginState,
    ((collectBlobs env paths s).1).publishQueue = s.publishQueue := by
  induction paths with
  | nil => intro s; rfl
  | cons p rest ih =>
    intro s
    cases hv : env.vault p with
    | none => simp [collectBlobs, hv, ih]
    | some c =>
      cases hb : reqVal (env.blobOutcome p) with
      | none => simp [collectBlobs, hv, hb, ih]
      | some sha => simp [collectBlobs, hv, hb, ih]

theorem collectBlobs_length (env : BatchEnv) (paths : List String)
    (h : ∀ p ∈ paths, (env.vault p).isSome = true ∧
      (env.blobOutcome p).isOk = true) :
    ∀ s : PluginState,
      ((collectBlobs env paths s).2).length = paths.length := by
  induction paths with
  | nil => intro s; rfl
  | cons p rest ih =>
    intro s
    have hp := h p (List.mem_cons_self p rest)
    have hrest : ∀ q ∈ rest, (env.vault q).isSome = true ∧
        (env.blobOutcome q).isOk = true :=
      fun q hq => h q (List.mem_cons_of_mem p hq)
    obtain ⟨c, hc⟩ := Option.isSome_iff_exists.mp hp.1
    obtain ⟨sha, hsha⟩ := isOk_exists hp.2
    simp [collectBlobs, hc, hsha, ih hrest]

/-! Lemmas about the pending-state map and the publish queue. -/

theorem mapGet_mapSet_self : ∀ (m : List (String × Bool)) (k : String)
    (v : Bool), mapGet (mapSet m k v) k = some v := by
  intro m
  induction m with
  | nil => intro k v; simp [mapSet, mapGet]
  | cons hd t ih =>
    intro k v
    obtain ⟨k', v'⟩ := hd
    by_cases hk : k' = k
    · simp [mapSet, hk, mapGet]
    · simp [mapSet, hk, mapGet, ih]

theorem mapGet_mapSet_ne : ∀ (m : List (String × Bool)) (k : String)
    (v : Bool) (q : String), k ≠ q →
    mapGet (mapSet m k v) q = mapGet m q := by
  intro m
  induction m with
  | nil => intro k v q h; simp [mapSet, mapGet, h]
  | cons hd t ih =>
    intro k v q h
    obtain ⟨k', v'⟩ := hd
    by_cases hk : k' = k
    · subst hk
      simp [mapSet, mapGet, h]
    · simp only [mapSet, if_neg hk, mapGet]
      by_cases hq : k' = q
      · simp [hq]
      · simp [hq, ih k v q h]

theorem mapGet_setAllClean_not_mem : ∀ (ps : List String)
    (m : List (String × Bool)) (q : String), q ∉ ps →
    mapGet (setAllClean m ps) q = mapGet m q := by
  intro ps
  induction ps with
  | nil => intro m q h; rfl
  | cons p rest ih =>
    intro m q h
    have h1 : q ∉ rest := fun hq => h (List.mem_cons_of_mem _ hq)
    have h2 : p ≠ q := fun he => h (he ▸ List.mem_cons_self p rest)
    simp only [setAllClean]
    rw [ih _ _ h1, mapGet_mapSet_ne _ _ _ _ h2]

theorem mapGet_setAllClean_mem : ∀ (ps : List String)
    (m : List (String × Bool)) (p : String), p ∈ ps →
    mapGet (setAllClean m ps) p = some false := by
  intro ps
  induction ps with
  | nil => intro m p h; cases h
  | cons a rest ih =>
    intro m p h
    by_cases hp : p ∈ rest
    · simpa [setAllClean] using ih _ _ hp
    · have hpa : p = a := by
        rcases List.mem_cons.mp h with h1 | h2
        · exact h1
        · exact absurd h2 hp
      subst hpa
      simp only [setAllClean]
      rw [mapGet_setAllClean_not_mem rest _ _ hp, mapGet_mapSet_self]

theorem mem_queueAdd {q : List String} {p x : String} :
    x ∈ queueAdd q p ↔ x ∈ q ∨ x = p := by
  unfold queueAdd
  by_cases h : p ∈ q
  · simp only [if_pos h]
    constructor
    · exact Or.inl
    · rintro (hx | rfl)
      · exact hx
      · exact h
  · simp [if_neg h, List.mem_append]

theorem queueAdd_nodup {q : List String} {p : String} (h : q.Nodup) :
    (queueAdd q p).Nodup := by
  unfold queueAdd
  by_cases hp : p ∈ q
  · simpa [hp] using h
  · simp only [if_neg hp]
    refine List.Nodup.append h (List.nodup_singleton p) ?_
    intro a ha hb
    rw [List.mem_singleton] at hb
    exact hp (hb ▸ ha)

/-! Structural lemmas about one batch run. -/

theorem publishBatch_pending_eq (env : BatchEnv) (paths : List String)
    (s0 : PluginState) :
    (publishBatch env paths s0).pendingChanges = s0.pendingChanges ∨
    ((publishBatch env paths s0).pendingChanges =
        setAllClean s0.pendingChanges paths ∧
      env.refUpdateOutcome = ReqOutcome.ok ()) := by
  simp only [publishBatch]
  cases hpr : parseRepo s0.settings with
  | none => left; simp
  | some pr =>
    cases hsha : ensureBranchExistsSha env with
    | none => left; simp
    | some base =>
      cases hemp : ((collectBlobs env paths
          (ensureBranchExistsState env (pushLog s0 "batch_start"))).2).isEmpty with
      | true => left; simp
      | false =>
        cases htr : reqVal env.treeOutcome with
        | none => left; simp
        | some t =>
          cases hcm : reqVal env.commitOutcome with
          | none => left; simp
          | some c =>
            cases hup : env.refUpdateOutcome with
            | err e => left; simp
            | ok u =>
              cases u
              right
              refine ⟨?_, rfl⟩
              simp

theorem publishBatch_publishQueue (env : BatchEnv) (paths : List String)
    (s0 : PluginState) :
    (publishBatch env paths s0).publishQueue = s0.publishQueue := by
  simp only [publishBatch]
  cases hpr : parseRepo s0.settings with
  | none => simp
  | some pr =>
    cases hsha : ensureBranchExistsSha env with
    | none => simp
    | some base =>
      cases hemp : ((collectBlobs env paths
          (ensureBranchExistsState env (pushLog s0 "batch_start"))).2).isEmpty with
      | true => simp
      | false =>
        cases htr : reqVal env.treeOutcome with
        | none => simp
        | some t =>
          cases hcm : reqVal env.commitOutcome with
          | none => simp
          | some c =>
            cases hup : reqVal env.refUpdateOutcome with
            | none => simp
            | some u => simp

theorem publishBatch_success_pending (env : BatchEnv)
    (paths : List String) (s0 : PluginState)
    (hpr : (parseRepo s0.settings).isSome = true)
    (href : env.refOutcome.isOk = true)
    (hall : ∀ p ∈ paths, (env.vault p).isSome = true ∧
      (env.blobOutcome p).isOk = true)
    (hne : paths ≠ [])
    (ht : env.treeOutcome.isOk = true)
    (hc : env.commitOutcome.isOk = true)
    (hupd : env.refUpdateOutcome = ReqOutcome.ok ()) :
    (publishBatch env paths s0).pendingChanges =
      setAllClean s0.pendingChanges paths := by
  obtain ⟨pr, hpr2⟩ := Option.isSome_iff_exists.mp hpr
  obtain ⟨b, hb⟩ := isOk_exists href
  obtain ⟨t, ht2⟩ := isOk_exists ht
  obtain ⟨c, hc2⟩ := isOk_exists hc
  have hsha : ensureBranchExistsSha env = some b := by
    simp [ensureBranchExistsSha, hb]
  have hlen := collectBlobs_length env paths hall
    (ensureBranchExistsState env (pushLog s0 "batch_start"))
  have hemp : ((collectBlobs env paths
      (ensureBranchExistsState env (pushLog s0 "batch_start"))).2).isEmpty
      = false := by
    cases hE : (collectBlobs env paths
        (ensureBranchExistsState env (pushLog s0 "batch_start"))).2 with
    | nil =>
      rw [hE] at hlen
      cases paths with
      | nil => exact absurd rfl hne
      | cons x xs => simp at hlen
    | cons x xs => rfl
  simp [publishBatch, hpr2, hsha, hemp, ht2, hc2, hupd]

theorem publishBatch_refErr_notice (env : BatchEnv) (paths : List String)
    (s0 : PluginState) (e : Option Nat)
    (hpr : (parseRepo s0.settings).isSome = true)
    (href : env.refOutcome.isOk = true)
    (hall : ∀ p ∈ paths, (env.vault p).isSome = true ∧
      (env.blobOutcome p).isOk = true)
    (hne : paths ≠ [])
    (ht : env.treeOutcome.isOk = true)
    (hc : env.commitOutcome.isOk = true)
    (hupd : env.refUpdateOutcome = ReqOutcome.err e) :
    noticeFor e ∈ (publishBatch env paths s0).notices := by
  obtain ⟨pr, hpr2⟩ := Option.isSome_iff_exists.mp hpr
  obtain ⟨b, hb⟩ := isOk_exists href
  obtain ⟨t, ht2⟩ := isOk_exists ht
  obtain ⟨c, hc2⟩ := isOk_exists hc
  have hsha : ensureBranchExistsSha env = some b := by
    simp [ensureBranchExistsSha, hb]
  have hlen := collectBlobs_length env paths hall
    (ensureBranchExistsState env (pushLog s0 "batch_start"))
  have hemp : ((collectBlobs env paths
      (ensureBranchExistsState env (pushLog s0 "batch_start"))).2).isEmpty
      = false := by
    cases hE : (collectBlobs env paths
        (ensureBranchExistsState env (pushLog s0 "batch_start"))).2 with
    | nil =>
      rw [hE] at hlen
      cases paths with
      | nil => exact absurd rfl hne
      | cons x xs => simp at hlen
    | cons x xs => rfl
  simp [publishBatch, hpr2, hsha, hemp, ht2, hc2, hupd, reqState]

/-! Structural lemmas about one drain of the publish queue. -/

theorem processPublishQueue_queue_mem (env : BatchEnv) (s : PluginState) :
    ∀ q ∈ (processPublishQueue env s).publishQueue, q ∈ s.publishQueue := by
  intro q
  simp only [processPublishQueue]
  cases h1 : s.publishingInProgress with
  | true => simp
  | false =>
    cases h2 : ensureGitHubConfig s with
    | false => simp
    | true =>
      cases h3 : s.publishQueue.isEmpty with
      | true => simp
      | false =>
        simp only [Bool.not_true, Bool.false_eq_true, if_false,
          List.mem_filter, decide_eq_true_eq]
        intro hq
        rw [publishBatch_publishQueue] at hq
        exact hq.1

theorem processPublishQueue_queue_nodup (env : BatchEnv)
    (s : PluginState) (h : s.publishQueue.Nodup) :
    (processPublishQueue env s).publishQueue.Nodup := by
  simp only [processPublishQueue]
  cases h1 : s.publishingInProgress with
  | true => simpa using h
  | false =>
    cases h2 : ensureGitHubConfig s with
    | false => simpa using h
    | true =>
      cases h3 : s.publishQueue.isEmpty with
      | true => simpa using h
      | false =>
        simp only [Bool.not_true, Bool.false_eq_true, if_false]
        rw [publishBatch_publishQueue]
        exact h.filter _

/-! Claim theorems. -/

/-- C1: evaluation of the code at the failing input. In a batch over
`a.md` and `b.md` where the blob upload for `a.md` fails (it is logged
`blob_fail` and excluded from the tree) and the ref update succeeds for
the rest (`batch_ok`), `publishBatch` nevertheless sets the dirty flag
of `a.md` to `false`, so the path is not retried in the next run — the
claim requires it to stay `true`. -/
theorem c1_blob_failure_path_marked_clean :
    "blob_fail" ∈
      (publishBatch envBlobFail ["a.md", "b.md"] twoDirtyState).logs ∧
    "batch_ok" ∈
      (publishBatch envBlobFail ["a.md", "b.md"] twoDirtyState).logs ∧
    mapGet (publishBatch envBlobFail ["a.md", "b.md"]
        twoDirtyState).pendingChanges "a.md" = some false := by
  decide

/-- C2: a path marked dirty by a vault-modify event after the batch
snapshot was taken, and absent from that snapshot, still has a true
dirty flag after `publishBatch` completes, whatever the outcome of the
run. -/
theorem c2_late_dirty_mark_survives (env : BatchEnv)
    (paths : List String) (s : PluginState) (q : String)
    (h : q ∉ paths) :
    mapGet (publishBatch env paths
        (handleVaultModify s q true (some true))).pendingChanges q =
      some true := by
  have hset : (handleVaultModify s q true (some true)).pendingChanges =
      mapSet s.pendingChanges q true := by
    simp [handleVaultModify]
  rcases publishBatch_pending_eq env paths
      (handleVaultModify s q true (some true)) with hE | ⟨hE, _⟩
  · rw [hE, hset, mapGet_mapSet_self]
  · rw [hE, mapGet_setAllClean_not_mem paths _ q h, hset,
      mapGet_mapSet_self]

/-- Witness for C2 at a concrete input: a dirty mark on `b.md` during a
batch over `a.md` alone survives the successful batch. -/
theorem c2_late_dirty_mark_survives_witness :
    mapGet (publishBatch allOkEnv ["a.md"]
        (handleVaultModify baseState "b.md" true (some true))).pendingChanges
        "b.md" = some true :=
  c2_late_dirty_mark_survives allOkEnv ["a.md"] baseState "b.md" (by decide)

/-- C3: when a batch run reaches the final branch-ref update and that
update fails with HTTP 409, no path is marked clean — the pending map is
unchanged, every batched dirty path stays dirty — and the user-visible
conflict notice is raised. -/
theorem c3_ref_conflict_keeps_dirty_and_notifies (env : BatchEnv)
    (paths : List String) (s : PluginState)
    (hpr : (parseRepo s.settings).isSome = true)
    (href : env.refOutcome.isOk = true)
    (hall : ∀ p ∈ paths, (env.vault p).isSome = true ∧
      (env.blobOutcome p).isOk = true)
    (hne : paths ≠ [])
    (ht : env.treeOutcome.isOk = true)
    (hc : env.commitOutcome.isOk = true)
    (hupd : env.refUpdateOutcome = ReqOutcome.err (some 409)) :
    (publishBatch env paths s).pendingChanges = s.pendingChanges ∧
    (∀ p ∈ paths, mapGet s.pendingChanges p = some true →
      mapGet (publishBatch env paths s).pendingChanges p = some true) ∧
    "GitHub 409 Konflikt" ∈ (publishBatch env paths s).notices := by
  have hpend : (publishBatch env paths s).pendingChanges =
      s.pendingChanges := by
    rcases publishBatch_pending_eq env paths s with hE | ⟨_, hok⟩
    · exact hE
    · rw [hupd] at hok
      simp at hok
  refine ⟨hpend, ?_, ?_⟩
  · intro p hp hd
    rw [hpend]
    exact hd
  · have hmem := publishBatch_refErr_notice env paths s (some 409)
      hpr href hall hne ht hc hupd
    have h409 : noticeFor (some 409) = "GitHub 409 Konflikt" := by decide
    rw [h409] at hmem
    exact hmem

/-- Witness for C3 at a concrete input: a conflicting ref update over
the snapshot containing `a.md` leaves `a.md` dirty and raises the 409
notice. -/
theorem c3_ref_conflict_keeps_dirty_and_notifies_witness :
    mapGet (publishBatch conflictEnv ["a.md"]
        twoDirtyState).pendingChanges "a.md" = some true ∧
    "GitHub 409 Konflikt" ∈
      (publishBatch conflictEnv ["a.md"] twoDirtyState).notices := by
  have h := c3_ref_conflict_keeps_dirty_and_notifies conflictEnv ["a.md"]
    twoDirtyState (by decide) (by decide) (by decide) (by decide)
    (by decide) (by decide) (by decide)
  exact ⟨h.2.1 "a.md" (by decide) (by decide), h.2.2⟩

/-- C4: evaluation of the code at the failing input. With `a.md` and
`b.md` both dirty and every remote request succeeding, `publishAllPending`
runs one batch per path — two `batch_start` events and two `batch_ok`
commits on the branch — not one batch with a single commit as the claim
states. -/
theorem c4_publish_all_one_commit_per_path :
    (publishAllPending allOkEnv twoDirtyState).logs.count "batch_ok" = 2 ∧
    (publishAllPending allOkEnv twoDirtyState).logs.count "batch_start" = 2 ∧
    ¬(publishAllPending allOkEnv twoDirtyState).logs.count "batch_ok" = 1 := by
  decide

/-- C5: while a batch run is in flight, `processPublishQueue` returns
the state unchanged, and a publish-one request arriving through
`queueFileForPublish` never starts a second run: no network call is
issued, the pending flags are untouched and the gate stays set. -/
theorem c5_in_flight_gate_drops_request (env : BatchEnv)
    (s : PluginState) (p content : String)
    (h : s.publishingInProgress = true) :
    processPublishQueue env s = s ∧
    (queueFileForPublish env s p content).pendingChanges =
      s.pendingChanges ∧
    (queueFileForPublish env s p content).netCalls = s.netCalls ∧
    (queueFileForPublish env s p content).publishingInProgress = true := by
  have hpq : processPublishQueue env s = s := by
    simp [processPublishQueue, h]
  refine ⟨hpq, ?_⟩
  cases hs : isSafePath p with
  | false =>
    have he : queueFileForPublish env s p content = s := by
      simp [queueFileForPublish, hs]
    rw [he]
    exact ⟨rfl, rfl, h⟩
  | true =>
    cases hl : isTooLarge s content with
    | true =>
      have he : queueFileForPublish env s p content =
          pushLog s "skip_large" := by
        simp [queueFileForPublish, hs, hl]
      rw [he]
      exact ⟨rfl, rfl, h⟩
    | false =>
      have he : queueFileForPublish env s p content =
          { s with publishQueue := queueAdd s.publishQueue p } := by
        simp only [queueFileForPublish, hs, Bool.not_true,
          Bool.false_eq_true, if_false, hl]
        simp [processPublishQueue, h]
      rw [he]
      exact ⟨rfl, rfl, h⟩

/-- Witness for C5 at a concrete input: with a batch in flight, a drain
request is a no-op and a publish-one request issues no network call. -/
theorem c5_in_flight_gate_drops_request_witness :
    processPublishQueue allOkEnv inFlightState = inFlightState ∧
    (queueFileForPublish allOkEnv inFlightState "n.md" "x").netCalls =
      inFlightState.netCalls :=
  ⟨(c5_in_flight_gate_drops_request allOkEnv inFlightState "n.md" "x"
      rfl).1,
   (c5_in_flight_gate_drops_request allOkEnv inFlightState "n.md" "x"
      rfl).2.2.1⟩

/-- C6: a successful batch run clears the dirty flag for every path of
its snapshot, and leaves the dirty flag of every other path unchanged. -/
theorem c6_success_clears_exactly_snapshot (env : BatchEnv)
    (paths : List String) (s : PluginState)
    (hpr : (parseRepo s.settings).isSome = true)
    (href : env.refOutcome.isOk = true)
    (hall : ∀ p ∈ paths, (env.vault p).isSome = true ∧
      (env.blobOutcome p).isOk = true)
    (hne : paths ≠ [])
    (ht : env.treeOutcome.isOk = true)
    (hc : env.commitOutcome.isOk = true)
    (hupd : env.refUpdateOutcome = ReqOutcome.ok ()) :
    (∀ p ∈ paths, mapGet (publishBatch env paths s).pendingChanges p =
      some false) ∧
    (∀ q, q ∉ paths → mapGet (publishBatch env paths s).pendingChanges q =
      mapGet s.pendingChanges q) := by
  have hpend := publishBatch_success_pending env paths s hpr href hall
    hne ht hc hupd
  constructor
  · intro p hp
    rw [hpend]
    exact mapGet_setAllClean_mem paths _ p hp
  · intro q hq
    rw [hpend]
    exact mapGet_setAllClean_not_mem paths _ q hq

/-- Witness for C6 at a concrete input: a successful batch over `a.md`
and `b.md` clears `a.md` and leaves the absent path `c.md` unchanged. -/
theorem c6_success_clears_exactly_snapshot_witness :
    mapGet (publishBatch allOkEnv ["a.md", "b.md"]
        twoDirtyState).pendingChanges "a.md" = some false ∧
    mapGet (publishBatch allOkEnv ["a.md", "b.md"]
        twoDirtyState).pendingChanges "c.md" =
      mapGet twoDirtyState.pendingChanges "c.md" := by
  have h := c6_success_clears_exactly_snapshot allOkEnv ["a.md", "b.md"]
    twoDirtyState (by decide) (by decide) (by decide) (by decide)
    (by decide) (by decide) rfl
  exact ⟨h.1 "a.md" (by decide), h.2 "c.md" (by decide)⟩

/-- C7 counterexample: the claim as stated is false. Through the
publish-current command, a file whose `published` frontmatter is `false`
is enqueued (here while a batch is in flight, so it stays visible in the
queue): queue membership does not imply `published == true` at enqueue
time. -/
theorem c7_unpublished_path_enqueued :
    draftEnv.meta "draft.md" = some false ∧
    "draft.md" ∈ (publishCurrentCommand draftEnv inFlightState
      (some ("draft.md", "x"))).publishQueue := by
  decide

/-- C7 as amended: the queue never contains duplicates and every path
in it was path-safe and within the size ceiling at enqueue time; enqueue
of a path-unsafe path is a complete no-op, and enqueue of an oversized
file leaves the queue and the network-call count unchanged. The
`published` flag is not part of the enqueue check. -/
theorem c7_queue_eligibility_invariant (env : BatchEnv)
    (s : PluginState) (p content : String)
    (h1 : s.publishQueue.Nodup)
    (h2 : ∀ q ∈ s.publishQueue, isSafePath q = true) :
    (queueFileForPublish env s p content).publishQueue.Nodup ∧
    (∀ q ∈ (queueFileForPublish env s p content).publishQueue,
      isSafePath q = true) ∧
    (∀ q ∈ (queueFileForPublish env s p content).publishQueue,
      q ∉ s.publishQueue →
      q = p ∧ isSafePath p = true ∧ isTooLarge s content = false) ∧
    (isSafePath p = false → queueFileForPublish env s p content = s) ∧
    (isTooLarge s content = true →
      (queueFileForPublish env s p content).publishQueue =
        s.publishQueue ∧
      (queueFileForPublish env s p content).netCalls = s.netCalls) := by
  cases hs : isSafePath p with
  | false =>
    have he : queueFileForPublish env s p content = s := by
      simp [queueFileForPublish, hs]
    rw [he]
    refine ⟨h1, h2, ?_, fun _ => rfl, fun _ => ⟨rfl, rfl⟩⟩
    intro q hq hnq
    exact absurd hq hnq
  | true =>
    cases hl : isTooLarge s content with
    | true =>
      have he : queueFileForPublish env s p content =
          pushLog s "skip_large" := by
        simp [queueFileForPublish, hs, hl]
      rw [he]
      refine ⟨h1, h2, ?_, ?_, fun _ => ⟨rfl, rfl⟩⟩
      · intro q hq hnq
        exact absurd hq hnq
      · intro hfalse
        exact Bool.noConfusion hfalse
    | false =>
      have he : queueFileForPublish env s p content =
          processPublishQueue env
            { s with publishQueue := queueAdd s.publishQueue p } := by
        simp only [queueFileForPublish, hs, Bool.not_true,
          Bool.false_eq_true, if_false, hl]
      rw [he]
      have hmem : ∀ q ∈ (processPublishQueue env
          { s with publishQueue := queueAdd s.publishQueue p }).publishQueue,
          q ∈ queueAdd s.publishQueue p :=
        fun q hq => processPublishQueue_queue_mem env
          { s with publishQueue := queueAdd s.publishQueue p } q hq
      refine ⟨?_, ?_, ?_, ?_, ?_⟩
      · exact processPublishQueue_queue_nodup env
          { s with publishQueue := queueAdd s.publishQueue p }
          (queueAdd_nodup h1)
      · intro q hq
        rcases mem_queueAdd.mp (hmem q hq) with hin | rfl
        · exact h2 q hin
        · exact hs
      · intro q hq hnq
        rcases mem_queueAdd.mp (hmem q hq) with hin | rfl
        · exact absurd hin hnq
        · exact ⟨rfl, rfl, rfl⟩
      · intro hfalse
        exact Bool.noConfusion hfalse
      · intro htrue
        exact Bool.noConfusion htrue

/-- Witness for C7 as amended at a concrete input: enqueueing `b.md`
into a well-formed queue keeps the queue duplicate-free. -/
theorem c7_queue_eligibility_invariant_witness :
    queuedState.publishQueue.Nodup ∧
    (queueFileForPublish allOkEnv queuedState "b.md" "B").publishQueue.Nodup :=
  ⟨by decide,
   (c7_queue_eligibility_invariant allOkEnv queuedState "b.md" "B"
      (by decide) (by decide)).1⟩

/-- C8 counterexample: the claim as stated is false. Turning the Auto
Publish toggle off only stores the flag: with all three timers armed,
the handler leaves every timer handle armed, so timer callbacks still
fire. -/
theorem c8_disable_keeps_timers_armed :
    (autoPublishToggleOnChange armedState false).settings.autoPublishEnabled
      = false ∧
    (autoPublishToggleOnChange armedState false).inactivityHandle = some 1 ∧
    (autoPublishToggleOnChange armedState false).sessionHandle = some 2 ∧
    (autoPublishToggleOnChange armedState false).debounceHandle = some 3 := by
  decide

/-- C8 as amended: unloading the orchestrator cancels the inactivity
timer, the session timer and the debounce gate, for every state
(unconditionally) and idempotently; disabling auto-publish does not
cancel armed timers, but while the feature is disabled the timer
callbacks' publish actions (`publishAllPending`,
`publishFileIfPending`) are no-ops. -/
theorem c8_unload_cancels_timers_idempotently (s : PluginState)
    (env : BatchEnv) (p content : String) :
    (onunload s).inactivityHandle = none ∧
    (onunload s).sessionHandle = none ∧
    (onunload s).debounceHandle = none ∧
    onunload (onunload s) = onunload s ∧
    (s.settings.autoPublishEnabled = false →
      publishAllPending env s = s) ∧
    (s.settings.autoPublishEnabled = false →
      publishFileIfPending env s p content = s) := by
  refine ⟨rfl, rfl, rfl, rfl, ?_, ?_⟩
  · intro h
    simp [publishAllPending, h]
  · intro h
    simp [publishFileIfPending, h]

/-- Witness for C8 as amended at concrete inputs: unloading the
enabled state with all three timers armed disarms the inactivity timer
and is idempotent, and with auto-publish disabled publish-all is a
no-op. -/
theorem c8_unload_cancels_timers_idempotently_witness :
    armedState.settings.autoPublishEnabled = true ∧
    armedState.inactivityHandle = some 1 ∧
    (onunload armedState).inactivityHandle = none ∧
    onunload (onunload armedState) = onunload armedState ∧
    publishAllPending allOkEnv disabledState = disabledState :=
  ⟨rfl, rfl,
   (c8_unload_cancels_timers_idempotently armedState allOkEnv
      "a.md" "A").1,
   (c8_unload_cancels_timers_idempotently armedState allOkEnv
      "a.md" "A").2.2.2.1,
   (c8_unload_cancels_timers_idempotently disabledState allOkEnv
      "a.md" "A").2.2.2.2.1 rfl⟩

/-- C9 counterexample: the claim as stated is false. With a valid repo
URL and the invalid branch name containing a space, sanitization resets
the branch to `main` but leaves auto-publish enabled, whereas the claim
says an invalid branch name disables auto-publish. -/
theorem c9_invalid_branch_keeps_autopublish :
    validBranch badBranchSettings.defaultBranch = false ∧
    (sanitizeSettings badBranchSettings).defaultBranch = "main" ∧
    (sanitizeSettings badBranchSettings).autoPublishEnabled = true := by
  decide

/-- C9 as amended: sanitization enforces the numeric minimums
(inactivity at least 5 s, session at least 1 min, debounce at least
250 ms, max file size at least 50 KB); an invalid repository URL is
silently reset to the empty string and disables auto-publish; an invalid
branch name is silently reset to `main` but does not change the
auto-publish flag. -/
theorem c9_sanitize_bounds_and_resets (st : Settings) :
    5 ≤ (sanitizeSettings st).inactivityDelaySec ∧
    1 ≤ (sanitizeSettings st).maxIntervalMin ∧
    250 ≤ (sanitizeSettings st).debounceMs ∧
    50 ≤ (sanitizeSettings st).maxFileSizeKB ∧
    (sanitizeSettings st).repoUri =
      (if validRepoUri st.repoUri then st.repoUri else "") ∧
    (sanitizeSettings st).autoPublishEnabled =
      (if validRepoUri st.repoUri then st.autoPublishEnabled else false) ∧
    (sanitizeSettings st).defaultBranch =
      (if validBranch st.defaultBranch then st.defaultBranch else "main") := by
  refine ⟨?_, ?_, ?_, ?_, rfl, rfl, rfl⟩
  · show (5 : Int) ≤
      if st.inactivityDelaySec < 5 then 5 else st.inactivityDelaySec
    split <;> omega
  · show (1 : Int) ≤ if st.maxIntervalMin < 1 then 1 else st.maxIntervalMin
    split <;> omega
  · show (250 : Int) ≤ if st.debounceMs < 250 then 250 else st.debounceMs
    split <;> omega
  · show (50 : Int) ≤ if st.maxFileSizeKB < 50 then 50 else st.maxFileSizeKB
    split <;> omega

/-- C10: after a drain that actually ran (gate open, config present),
every path of the drain's snapshot has been removed from the publish
queue, whatever the batch run did — retry is driven by the dirty flag
alone. -/
theorem c10_drain_removes_snapshot_paths (env : BatchEnv)
    (s : PluginState)
    (h1 : s.publishingInProgress = false)
    (h2 : ensureGitHubConfig s = true) :
    ∀ p ∈ s.publishQueue, p ∉ (processPublishQueue env s).publishQueue := by
  intro p hp
  cases h3 : s.publishQueue.isEmpty with
  | true =>
    have hnil : s.publishQueue = [] := by
      cases hq : s.publishQueue with
      | nil => rfl
      | cons a l =>
        rw [hq] at h3
        simp at h3
    rw [hnil] at hp
    cases hp
  | false =>
    intro hmem
    simp only [processPublishQueue, h1, h2, h3, Bool.not_true,
      Bool.false_eq_true, if_false, List.mem_filter,
      decide_eq_true_eq] at hmem
    exact hmem.2 hp

/-- Witness for C10 at a concrete input: after a drain of the queue
containing `a.md`, the path is gone from the queue. -/
theorem c10_drain_removes_snapshot_paths_witness :
    "a.md" ∉ (processPublishQueue allOkEnv queuedState).publishQueue :=
  c10_drain_removes_snapshot_paths allOkEnv queuedState (by decide)
    (by decide) "a.md" (by decide)

end GitPublish
